import Mathlib

/-!
Verification development for the FFC compiler backend core:
a shallow embedding of `src/ffc/compiler/tensor/monomialtransformation.py`
(monomial transformer, index algebra, index classifier) and of
`src/ffc/uflacs/generation/integralgenerator.py` (quadrature code generator),
with theorems settling the specified properties.

Python objects holding symbolic indices are compared by object identity in
the source (MonomialIndex defines no __eq__), so indices are embedded as
references (natural numbers) into an explicit arena of index records; the
arena models the Python heap for one transformation.  Python exceptions
(error(), MonomialException, KeyError, IndexError, AssertionError) are
embedded as `Except String`.  Numeric payloads that the source carries as
floats but never inspects (table values, quadrature weights) are carried
as integers; no claim depends on their arithmetic.
-/

deriving instance DecidableEq for Except

namespace FFC

/-! ## Index algebra (monomialtransformation.py lines 22-117) -/

/-- The five index roles of MonomialIndex (class constants FIXED..EXTERNAL).
`Option IndexType` below models the `index_type` attribute, with `none`
standing for Python `None` (a not-yet-classified index). -/
inductive IndexType where
  | fixed
  | primary
  | secondary
  | internal
  | external
  deriving DecidableEq, Repr

/-- One MonomialIndex object: `index_type`, `index_range`, `index_id`.
`index_id` is `Option Int` since Python initializes it to `None` for
fresh unclassified indices. -/
structure IndexRecord where
  index_type : Option IndexType
  index_range : List Int
  index_id : Option Int
  deriving DecidableEq, Repr

instance : Inhabited IndexRecord := ⟨⟨none, [], none⟩⟩

/-- Reference into the arena of index records (Python object identity). -/
abbrev Ref := Nat

/-- Read an index record from the arena. -/
def arenaGet (arena : List IndexRecord) (r : Ref) : IndexRecord :=
  arena.getD r default

/-- Allocate a new index record (a fresh MonomialIndex object). -/
def arenaAlloc (arena : List IndexRecord) (rec : IndexRecord) :
    List IndexRecord × Ref :=
  (arena ++ [rec], arena.length)

/-- `range(n)` as a list of integers. -/
def rangeList (n : Nat) : List Int :=
  (List.range n).map Int.ofNat

/-- MonomialIndex.__add__: copies the index and shifts its range by the
offset, returning a fresh object (the original instance is untouched);
`index_type` and `index_id` are copied unchanged. -/
def indexAdd (arena : List IndexRecord) (r : Ref) (offset : Int) :
    List IndexRecord × Ref :=
  let old := arenaGet arena r
  arenaAlloc arena { old with index_range := old.index_range.map (fun i => offset + i) }

/-- MonomialIndex.__sub__: `self + (-offset)`. -/
def indexSub (arena : List IndexRecord) (r : Ref) (offset : Int) :
    List IndexRecord × Ref :=
  indexAdd arena r (-offset)

/-- Python truthiness of an optional list argument: `not primary` is true
for both `None` (argument absent) and `[]` (empty binding). -/
def falsy : Option (List Int) → Bool
  | none => true
  | some [] => true
  | some (_ :: _) => false

/-- Python `lst[i]` for an integer `i` (negative indices count from the
end); raises IndexError when out of range. -/
def pyListGet (l : List Int) (id : Int) : Except String Int :=
  let j := if id < 0 then id + l.length else id
  if h : 0 ≤ j ∧ j.toNat < l.length then .ok (l.get ⟨j.toNat, h.2⟩)
  else .error "IndexError: list index out of range"

/-- `binding[self.index_id]` once the binding passed the truthiness guard;
an `index_id` of `None` would be a Python TypeError. -/
def pyIdGet (binding : Option (List Int)) (id : Option Int) : Except String Int :=
  match binding, id with
  | some l, some i => pyListGet l i
  | none, _ => .error "TypeError: binding is None"
  | _, none => .error "TypeError: list indices must be integers"

/-- MonomialIndex.__call__ (lines 71-93): evaluate the index against the
caller-supplied binding arrays.  FIXED returns `index_range[0]` without
consulting any binding; each other role first checks `not <binding>` (so a
missing binding and an empty one behave alike) and fails with the
role-naming message from `error(...)`; the final else branch of the source
evaluates `str(self.type)` on a nonexistent attribute, an AttributeError. -/
def MonomialIndex.call (idx : IndexRecord)
    (primary secondary internal external : Option (List Int)) :
    Except String Int :=
  match idx.index_type with
  | some .fixed =>
      match idx.index_range with
      | v :: _ => .ok v
      | [] => .error "IndexError: list index out of range"
  | some .primary =>
      if falsy primary then .error "Missing index values for primary indices."
      else pyIdGet primary idx.index_id
  | some .secondary =>
      if falsy secondary then .error "Missing index values for secondary indices."
      else pyIdGet secondary idx.index_id
  | some .internal =>
      if falsy internal then .error "Missing index values for internal auxiliary indices."
      else pyIdGet internal idx.index_id
  | some .external =>
      if falsy external then .error "Missing index values for external auxiliary indices."
      else pyIdGet external idx.index_id
  | none => .error "AttributeError: MonomialIndex instance has no attribute type"

/-- MonomialIndex.__str__ (lines 105-117).  A FIXED index with an empty
range would raise IndexError inside __str__; that case never arises in the
transformer (fixed ranges are singletons) and is rendered as a marker. -/
def indexStr (idx : IndexRecord) : String :=
  match idx.index_type with
  | some .fixed =>
      match idx.index_range with
      | v :: _ => toString v
      | [] => "IndexError"
  | some .primary => "i_" ++ (match idx.index_id with | some i => toString i | none => "None")
  | some .secondary => "a_" ++ (match idx.index_id with | some i => toString i | none => "None")
  | some .internal => "g_" ++ (match idx.index_id with | some i => toString i | none => "None")
  | some .external => "b_" ++ (match idx.index_id with | some i => toString i | none => "None")
  | none => "?"

/-! ## Index counters (lines 22-48)

The source keeps three module-global counters.  They are embedded as a
`Counters` value threaded through the transformation state; the incoming
value of `transformMonomial` models whatever a previous transformation left
in the globals. -/

structure Counters where
  secondary : Nat
  internal : Nat
  external : Nat
  deriving DecidableEq, Repr

/-- next_secondary_index: return the current value and increment. -/
def next_secondary_index (c : Counters) : Nat × Counters :=
  (c.secondary, { c with secondary := c.secondary + 1 })

/-- next_internal_index. -/
def next_internal_index (c : Counters) : Nat × Counters :=
  (c.internal, { c with internal := c.internal + 1 })

/-- next_external_index. -/
def next_external_index (c : Counters) : Nat × Counters :=
  (c.external, { c with external := c.external + 1 })

/-- reset_indices: all three counters back to zero. -/
def reset_indices : Counters := ⟨0, 0, 0⟩

/-! ## Raw monomial input (the UFL side of the transformer) -/

/-- A raw (pre-resolution) UFL index occurring in a factor's component or
derivative list: either a FixedIndex, which UFL compares by numeric value,
or a free Index, compared by its unique count.  This equality is exactly
the dictionary-key equality of the per-monomial `index_map`. -/
inductive RawIdx where
  | fixed (value : Int)
  | free (key : Nat)
  deriving DecidableEq, Repr

/-- The element-provider data the transformer reads for one factor's
element: `value_dimension(0)`, `space_dimension()`, `geometric_dimension()`,
`num_sub_elements()`, and the `component_element` lookup, which the source
consumes as `(sub_element, offset)` with `sub_element.mapping()`; only the
mapping kind and the offset are observed, so the table stores those. -/
inductive MappingType where
  | affine
  | contravariantPiola
  | covariantPiola
  deriving DecidableEq, Repr

structure RawElement where
  vdim : Nat
  sdim : Nat
  gdim : Nat
  cdim : Nat
  componentMap : List (MappingType × Int)
  deriving DecidableEq, Repr

/-- element.component_element(c) followed by sub_element.mapping():
the external element provider's per-component lookup. -/
def componentElementLookup (e : RawElement) (c : Int) : MappingType × Int :=
  e.componentMap.getD c.toNat (MappingType.affine, 0)

/-- The factor's function: a BasisFunction (unknown argument) or a Function
(known coefficient), each carrying its UFL `count()`. -/
inductive FuncKind where
  | basisFunction (count : Nat)
  | function (count : Nat)
  deriving DecidableEq, Repr

/-- One raw monomial factor: element, function origin, unresolved component
and derivative indices, optional restriction (restriction markers are only
carried through, so they are plain tags). -/
structure RawFactor where
  element : RawElement
  function : FuncKind
  components : List RawIdx
  derivatives : List RawIdx
  restriction : Option Nat
  deriving DecidableEq, Repr

/-- A raw monomial: float coefficient (carried as an integer payload,
never inspected) times an ordered factor list. -/
structure Monomial where
  float_value : Int
  factors : List RawFactor
  deriving DecidableEq, Repr

/-! ## Transformed-monomial record types (lines 119-202) -/

/-- MonomialDeterminant: integer power, optional restriction; power starts
at 0 for every fresh TransformedMonomial. -/
structure MonomialDeterminant where
  power : Int
  restriction : Option Nat
  deriving DecidableEq, Repr

/-- MonomialCoefficient: value index (a reference) plus source function
numbering. -/
structure MonomialCoefficient where
  index : Ref
  number : Nat
  deriving DecidableEq, Repr

/-- Transform kinds J ("J") and JINV ("JINV"). -/
inductive TransformType where
  | J
  | JINV
  deriving DecidableEq, Repr

/-- MonomialTransform: two index references, kind, restriction, offset.
Its constructor (mkMonomialTransform below) replaces FIXED endpoints by
offset-shifted copies. -/
structure MonomialTransform where
  index0 : Ref
  index1 : Ref
  transform_type : TransformType
  restriction : Option Nat
  offset : Int
  deriving DecidableEq, Repr

/-- MonomialTransform.__init__ (lines 149-165): store the data, but for a
FIXED endpoint subtract the offset, which creates a fresh index instance
(the comment in the source notes this is sound precisely because a fixed
index never needs to match any other index by identity). -/
def mkMonomialTransform (arena : List IndexRecord) (i0 i1 : Ref)
    (tt : TransformType) (restriction : Option Nat) (offset : Int) :
    List IndexRecord × MonomialTransform :=
  let s0 : List IndexRecord × Ref :=
    if (arenaGet arena i0).index_type = some .fixed then indexSub arena i0 offset
    else (arena, i0)
  let s1 : List IndexRecord × Ref :=
    if (arenaGet s0.1 i1).index_type = some .fixed then indexSub s0.1 i1 offset
    else (s0.1, i1)
  (s1.1, ⟨s0.2, s1.2, tt, restriction, offset⟩)

/-- MonomialBasisFunction: element handle, value index, component index
list, derivative index list, restriction. -/
structure MonomialBasisFunction where
  element : RawElement
  index : Ref
  components : List Ref
  derivatives : List Ref
  restriction : Option Nat
  deriving DecidableEq, Repr

/-! ## TransformedMonomial construction (lines 204-323) -/

/-- The mutable state of TransformedMonomial.__init__ while the factor loop
runs: the object heap (arena), the module-global counters, the per-monomial
`index_map` keyed by raw pre-resolution index identity, and the fields of
the monomial under construction. -/
structure TMState where
  arena : List IndexRecord
  counters : Counters
  index_map : List (RawIdx × Ref)
  coefficients : List MonomialCoefficient
  transforms : List MonomialTransform
  basis_functions : List MonomialBasisFunction
  determinant : MonomialDeterminant
  float_value : Int
  deriving DecidableEq, Repr

/-- Association-list lookup (Python `c in index_map` / `index_map[c]`). -/
def assocLookup {κ α : Type} [DecidableEq κ] : List (κ × α) → κ → Option α
  | [], _ => none
  | (k', v) :: rest, k => if k' = k then some v else assocLookup rest k

/-- Association-list store (Python `index_map[c] = index`). -/
def assocUpdate {κ α : Type} [DecidableEq κ] : List (κ × α) → κ → α → List (κ × α)
  | [], k, v => [(k, v)]
  | (k', v') :: rest, k, v =>
      if k' = k then (k, v) :: rest else (k', v') :: assocUpdate rest k v

/-- Lines 231-240: the factor's value index — PRIMARY with
`index_id = f.function.count()` for a BasisFunction, a fresh untyped index
plus a registered MonomialCoefficient for a Function. -/
def valueIndexStep (st : TMState) (f : RawFactor) : TMState × Ref :=
  match f.function with
  | .basisFunction count =>
      let al := arenaAlloc st.arena
        ⟨some .primary, rangeList f.element.sdim, some (Int.ofNat count)⟩
      ({ st with arena := al.1 }, al.2)
  | .function count =>
      let al := arenaAlloc st.arena ⟨none, rangeList f.element.sdim, none⟩
      ({ st with arena := al.1,
                 coefficients := st.coefficients ++ [⟨al.2, count⟩] }, al.2)

/-- One iteration of _extract_components (lines 327-337): resolve one raw
component through the per-monomial map — reuse the mapped index, else a
FIXED index for a literal, else a fresh untyped index over `range(vdim)` —
and (re)store the mapping in every case. -/
def extractComponentOne (vdim : Nat) (acc : TMState × List Ref) (c : RawIdx) :
    TMState × List Ref :=
  match assocLookup acc.1.index_map c with
  | some r =>
      ({ acc.1 with index_map := assocUpdate acc.1.index_map c r }, acc.2 ++ [r])
  | none =>
      match c with
      | .fixed v =>
          let al := arenaAlloc acc.1.arena ⟨some .fixed, [v], none⟩
          ({ acc.1 with arena := al.1,
                        index_map := assocUpdate acc.1.index_map c al.2 },
           acc.2 ++ [al.2])
      | .free _ =>
          let al := arenaAlloc acc.1.arena ⟨none, rangeList vdim, none⟩
          ({ acc.1 with arena := al.1,
                        index_map := assocUpdate acc.1.index_map c al.2 },
           acc.2 ++ [al.2])

/-- _extract_components (lines 325-338) over the factor's component list. -/
def extractComponentsStep (st : TMState) (f : RawFactor) : TMState × List Ref :=
  f.components.foldl (extractComponentOne f.element.vdim) (st, [])

/-- Lines 247-274: the Piola-handling step on the (already rank-checked)
resolved component list.  For a nonempty list: read `index_range` of the
first component (`index_range[0]`, IndexError when empty), check all range
entries share one mapping when the range has several entries, then apply
the mapping — CONTRAVARIANT_PIOLA inserts a J transform and decrements the
determinant power by one, COVARIANT_PIOLA inserts a JINV transform with no
determinant change, AFFINE does nothing.  Both Piola cases substitute the
fresh reference-side index for the component. -/
def piolaStep (st : TMState) (f : RawFactor) (components : List Ref) :
    Except String (TMState × List Ref) :=
  match components with
  | [] => .ok (st, components)
  | component :: rest =>
      match (arenaGet st.arena component).index_range with
      | [] => .error "IndexError: list index out of range"
      | r0 :: rrest =>
          if (r0 :: rrest).length > 1 ∧
             ¬ ((r0 :: rrest).all
                  (fun c => (componentElementLookup f.element c).1 =
                            (componentElementLookup f.element r0).1)) then
            .error "Unable to handle different mappings for index range."
          else
            match (componentElementLookup f.element r0).1 with
            | .contravariantPiola =>
                let offset := (componentElementLookup f.element r0).2
                let al := arenaAlloc st.arena ⟨none, rangeList f.element.gdim, none⟩
                let ad := indexAdd al.1 al.2 offset
                let tr := mkMonomialTransform ad.1 component ad.2 .J f.restriction offset
                .ok ({ st with arena := tr.1,
                               transforms := st.transforms ++ [tr.2],
                               determinant :=
                                 { st.determinant with
                                     power := st.determinant.power - 1 } },
                     ad.2 :: rest)
            | .covariantPiola =>
                let offset := (componentElementLookup f.element r0).2
                let al := arenaAlloc st.arena ⟨none, rangeList f.element.gdim, none⟩
                let ad := indexAdd al.1 al.2 offset
                let tr := mkMonomialTransform ad.1 ad.2 component .JINV f.restriction offset
                .ok ({ st with arena := tr.1,
                               transforms := st.transforms ++ [tr.2] },
                     ad.2 :: rest)
            | .affine => .ok (st, components)

/-- One iteration of the derivative loop (lines 278-291): allocate a
reference-space gradient index over `range(gdim)`, resolve the direction
through the map (reuse, else FIXED for a literal with `index_id = int(d)`,
else fresh), restore the mapping, and append a JINV transform with offset 0
linking gradient to direction. -/
def derivOne (f : RawFactor) (acc : TMState × List Ref) (d : RawIdx) :
    TMState × List Ref :=
  let al0 := arenaAlloc acc.1.arena ⟨none, rangeList f.element.gdim, none⟩
  let resolved : List IndexRecord × Ref :=
    match assocLookup acc.1.index_map d with
    | some r => (al0.1, r)
    | none =>
        match d with
        | .fixed v => arenaAlloc al0.1 ⟨some .fixed, [v], some v⟩
        | .free _ => arenaAlloc al0.1 ⟨none, rangeList f.element.gdim, none⟩
  let tr := mkMonomialTransform resolved.1 al0.2 resolved.2 .JINV f.restriction 0
  ({ acc.1 with arena := tr.1,
                index_map := assocUpdate acc.1.index_map d resolved.2,
                transforms := acc.1.transforms ++ [tr.2] },
   acc.2 ++ [al0.2])

/-- The derivative loop (lines 276-291) over the factor's derivatives. -/
def derivStep (st : TMState) (f : RawFactor) : TMState × List Ref :=
  f.derivatives.foldl (derivOne f) (st, [])

/-- One iteration of the factor loop (lines 222-298): value index,
component resolution, the rank check
(`raise MonomialException, "Can only handle rank 0 or rank 1 tensors."`),
Piola handling, derivative handling, and packaging of the
MonomialBasisFunction.  The source also reads `num_sub_elements()` into an
unused local `cdim`. -/
def processFactor (st : TMState) (f : RawFactor) : Except String TMState :=
  let st1 := (valueIndexStep st f).1
  let vindex := (valueIndexStep st f).2
  let st2 := (extractComponentsStep st1 f).1
  let components := (extractComponentsStep st1 f).2
  if components.length > 1 then
    .error "Can only handle rank 0 or rank 1 tensors."
  else
    match piolaStep st2 f components with
    | .error e => .error e
    | .ok pr =>
        let st4 := (derivStep pr.1 f).1
        let derivatives := (derivStep pr.1 f).2
        .ok { st4 with
                basis_functions := st4.basis_functions ++
                  [⟨f.element, vindex, pr.2, derivatives, f.restriction⟩] }

/-! ## Footprints and classification (lines 300-323, 341-353) -/

/-- extract_internal_indices: for each basis function, its value index,
components and derivatives, filtered to the requested `index_type`. -/
def extract_internal_indices (arena : List IndexRecord)
    (bfs : List MonomialBasisFunction) (ty : Option IndexType) : List Ref :=
  (bfs.foldl (fun acc v => acc ++ [v.index] ++ v.components ++ v.derivatives) []).filter
    (fun r => (arenaGet arena r).index_type = ty)

/-- extract_external_indices: coefficient value indices and both endpoints
of every transform, filtered to the requested `index_type`. -/
def extract_external_indices (arena : List IndexRecord)
    (coeffs : List MonomialCoefficient) (transforms : List MonomialTransform)
    (ty : Option IndexType) : List Ref :=
  ((coeffs.map (·.index)) ++ (transforms.map (·.index0)) ++
   (transforms.map (·.index1))).filter
    (fun r => (arenaGet arena r).index_type = ty)

/-- Set a record's `index_type` and `index_id` (the two assignments of the
classification loop).  `List.set` on an out-of-range reference is a no-op,
matching that such references never denote live objects. -/
def setTypeId (arena : List IndexRecord) (r : Ref) (ty : IndexType) (id : Int) :
    List IndexRecord :=
  arena.set r { arenaGet arena r with index_type := some ty, index_id := some id }

/-- The message of the contraction error `error("Summation index does not
appear exactly twice: " + str(i))`. -/
def contractionMsg (idx : IndexRecord) : String :=
  "Summation index does not appear exactly twice: " ++ indexStr idx

/-- The classification loop (lines 303-323): walk the concatenated
footprints; skip indices already carrying a type; otherwise count the
index's occurrences (by object identity) in each footprint and classify —
(1,1) SECONDARY, (2,0) INTERNAL, (0,2) EXTERNAL, drawing the new id from
the matching counter — or abort with the contraction error. -/
def classifyLoop (arena : List IndexRecord) (ctr : Counters)
    (intRefs extRefs : List Ref) : List Ref →
    Except String (List IndexRecord × Counters)
  | [] => .ok (arena, ctr)
  | i :: rest =>
      if (arenaGet arena i).index_type ≠ none then
        classifyLoop arena ctr intRefs extRefs rest
      else if intRefs.count i = 1 ∧ extRefs.count i = 1 then
        classifyLoop
          (setTypeId arena i .secondary (Int.ofNat (next_secondary_index ctr).1))
          (next_secondary_index ctr).2 intRefs extRefs rest
      else if intRefs.count i = 2 ∧ extRefs.count i = 0 then
        classifyLoop
          (setTypeId arena i .internal (Int.ofNat (next_internal_index ctr).1))
          (next_internal_index ctr).2 intRefs extRefs rest
      else if intRefs.count i = 0 ∧ extRefs.count i = 2 then
        classifyLoop
          (setTypeId arena i .external (Int.ofNat (next_external_index ctr).1))
          (next_external_index ctr).2 intRefs extRefs rest
      else
        .error (contractionMsg (arenaGet arena i))

/-- The whole classification step: the footprint lists are computed once
with `index_type = None`, and the loop runs over their concatenation. -/
def classifyIndices (arena : List IndexRecord) (ctr : Counters)
    (intRefs extRefs : List Ref) : Except String (List IndexRecord × Counters) :=
  classifyLoop arena ctr intRefs extRefs (intRefs ++ extRefs)

/-- The finished TransformedMonomial, together with the arena interpreting
its index references. -/
structure TransformedMonomial where
  float_value : Int
  determinant : MonomialDeterminant
  coefficients : List MonomialCoefficient
  transforms : List MonomialTransform
  basis_functions : List MonomialBasisFunction
  arena : List IndexRecord
  deriving DecidableEq, Repr

/-- TransformedMonomial.__init__ (lines 206-323): copy the float value,
fresh determinant of power 0, empty coefficient/transform/basis-function
lists, reset the global index counters, fresh `index_map`, run the factor
loop, then compute the two `None`-typed footprints and classify.
`ctr0` is whatever a previous transformation left in the global counters. -/
def transformMonomial (ctr0 : Counters) (m : Monomial) :
    Except String TransformedMonomial :=
  let st0 : TMState :=
    { arena := [], counters := ctr0, index_map := [], coefficients := [],
      transforms := [], basis_functions := [],
      determinant := { power := 0, restriction := none },
      float_value := m.float_value }
  let st1 := { st0 with counters := reset_indices }
  match m.factors.foldlM processFactor st1 with
  | .error e => .error e
  | .ok st =>
      let internalRefs := extract_internal_indices st.arena st.basis_functions none
      let externalRefs :=
        extract_external_indices st.arena st.coefficients st.transforms none
      match classifyIndices st.arena st.counters internalRefs externalRefs with
      | .error e => .error e
      | .ok res =>
          .ok { float_value := st.float_value, determinant := st.determinant,
                coefficients := st.coefficients, transforms := st.transforms,
                basis_functions := st.basis_functions, arena := res.1 }

/-! ## Quadrature code generator (integralgenerator.py)

The backend adapter's AST (the `L` language module) is external to the
core; its node constructors become constructors of `CExpr`/`CStmt`, and its
callable capabilities (symbols, terminal access/definitions, operator
translation) become the function fields of `Backend`.  `flattened_indices`
and `commented_code_list` are helpers of that external module.  Expression
graph nodes (the factorized IR, consumed only) carry a node id standing for
the UFL object, which keys the access memo exactly as the Python dict
keyed by the expression does. -/

/-- Target-language expressions (nodes the generator builds or receives). -/
inductive CExpr where
  | symbol (name : String)
  | arrayAccess (base : CExpr) (index : CExpr)
  | literalInt (value : Int)
  | literalFloat (value : Int)
  | product (factors : List CExpr)
  | flatIndex (indices : List CExpr) (shape : List Nat)
  | backendExpr (tag : Nat) (operands : List CExpr)

/-- Target-language statements. -/
inductive CStmt where
  | comment (text : String)
  | verbatim (code : String)
  | assign (lhs rhs : CExpr)
  | assignAdd (lhs rhs : CExpr)
  | arrayDecl (typ : String) (name : String) (shape : List Nat)
      (values : List Int) (alignas : Nat)
  | scope (body : List CStmt)
  | forRange (index : CExpr) (lo hi : CExpr) (body : List CStmt)

/-- The backend adapter: naming symbols, per-terminal access expressions and
supporting definition statements, and UFL-operator-to-target translation.
All are externally supplied capabilities the generator only calls. -/
structure Backend where
  element_tensor : String
  quadrature_loop_index : Nat → String
  num_quadrature_points : Nat → String
  argument_loop_index : Nat → String
  weights_array : Nat → String
  points_array : Nat → String
  access : Nat → List Int → Nat → CExpr
  definitions : Nat → List Int → Nat → CExpr → List CStmt
  ufl_to_language : String → List CExpr → CExpr

/-- Modelled from the spec: the backend language helper
`L.commented_code_list` (the "comment" emission primitive composed with a
code list), absent from src/ — it prepends the comment lines exactly when
the code list is nonempty, so an empty generation stays empty. -/
def commented_code_list (code : List CStmt) (comments : List String) : List CStmt :=
  match code with
  | [] => []
  | _ => comments.map CStmt.comment ++ code

/-- An expression-graph node: a modified terminal (with its literal-ness
and value, read by the dof-block factor filter) or an operator application
over earlier nodes, each carrying the identity `id` under which its access
is memoized. -/
inductive VNode where
  | terminal (id : Nat) (isLiteral : Bool) (litValue : Int)
  | operator (id : Nat) (handler : String) (isCondition : Bool) (operands : List Nat)
  deriving DecidableEq, Repr

/-- The memo key of a node. -/
def VNode.nodeId : VNode → Nat
  | .terminal id _ _ => id
  | .operator id _ _ _ => id

/-- `v._ufl_is_literal_ and float(v) == 1.0`: the literal-one test of the
dof-block factor filter. -/
def VNode.isLiteralOne : VNode → Bool
  | .terminal _ isLit v => isLit && v == 1
  | .operator _ _ _ _ => false

/-- One dof-block contribution `(ma_indices, factor_index, table_ranges,
unames, ttypes)`. -/
structure Contribution where
  ma_indices : List Nat
  factor_index : Nat
  trs : List (List Int)
  unames : List String
  ttypes : List String
  deriving DecidableEq, Repr

/-- The per-quadrature-rule factorized IR consumed by the generator.
Python iterates its dicts in sorted order; the association lists model the
sorted item sequences. -/
structure ExprIR where
  need_weights : Bool
  need_points : Bool
  unique_tables : List (String × List Nat × List Int)
  V : List VNode
  piecewise : List Bool
  varying : List Bool
  table_ranges : List (List Int)
  modified_arguments : List Nat
  block_contributions_piecewise : List (List (Int × Int) × List Contribution)
  block_contributions_varying : List (List (Int × Int) × List Contribution)
  deriving DecidableEq, Repr

/-- A quadrature rule: point coordinates and weights (numeric payloads as
integers; only lengths and shapes are inspected). -/
structure QuadRule where
  points : List (List Int)
  weights : List Int
  deriving DecidableEq, Repr

/-- The integral IR dict fields the generator reads. -/
structure IR where
  integral_type : String
  tensor_shape : List Nat
  alignas : Nat
  quadrature_rules : List (Nat × QuadRule)
  expr_irs : List (Nat × ExprIR)
  deriving DecidableEq, Repr

/-- `ufl.product` of a shape (1 for the empty product). -/
def listProd (l : List Nat) : Nat := l.foldl (· * ·) 1

/-- Python `lst[i]` on an arbitrary list (non-negative index), IndexError
when out of range. -/
def listGet? {α : Type} (l : List α) (i : Nat) (msg : String) : Except String α :=
  match l.get? i with
  | some x => .ok x
  | none => .error msg

/-- Python dict lookup `d[k]`, KeyError when absent. -/
def dictGet? {κ α : Type} [DecidableEq κ] (l : List (κ × α)) (k : κ) (msg : String) :
    Except String α :=
  match assocLookup l k with
  | some x => .ok x
  | none => .error msg

/-- Set-insertion for `self._ufl_names.add(...)`. -/
def insertName (names : List String) (n : String) : List String :=
  if n ∈ names then names else names ++ [n]

/-- The mutable generator state: `self.vaccesses` (one access memo per
quadrature-point count) and `self._ufl_names`. -/
structure GenState where
  vaccesses : List (Nat × List (Nat × CExpr))
  ufl_names : List String

/-- The fresh access memos of `generate` (lines 98-99): one empty dict per
quadrature-point count, so the memo starts empty when a new count begins. -/
def initVaccesses (nums : List Nat) : List (Nat × List (Nat × CExpr)) :=
  nums.map (fun n => (n, []))

/-- The memset statement of generate_tensor_reset's local `memzero`. -/
def memzero (ptrname : String) (size : Nat) : CStmt :=
  CStmt.verbatim
    ("memset(" ++ ptrname ++ ", 0, " ++ toString size ++ " * sizeof(*" ++ ptrname ++ "));")

/-- generate_tensor_reset (lines 193-213): a comment, then a direct scalar
assignment `A[0] = 0.0` when the tensor-shape product is 1, else one
memset over the whole size. -/
def generate_tensor_reset (ir : IR) (backend : Backend) : List CStmt :=
  let A := CExpr.symbol backend.element_tensor
  let A_size := listProd ir.tensor_shape
  [CStmt.comment "Reset element tensor"] ++
  (if A_size = 1 then
    [CStmt.assign (CExpr.arrayAccess A (CExpr.literalInt 0)) (CExpr.literalFloat 0)]
   else
    [memzero backend.element_tensor A_size])

/-- The loop-body accumulator of generate_partition: terminal definitions,
intermediate assignments, the access memo of the current
quadrature-point count, and the used-operator-name set. -/
structure PartState where
  definitions : List CStmt
  intermediates : List CStmt
  vaccesses : List (Nat × CExpr)
  ufl_names : List String

/-- One iteration of generate_partition's node loop (lines 334-383).  A
modified terminal gets its backend access and supporting definitions; an
operator node gathers already-memoized operand accesses (KeyError if an
operand was not visited — the precomputed topological order prevents
this), records its handler name, translates, and — unless the node is a
boolean condition, which is inlined — assigns the translation to the next
slot of the per-partition intermediate array.  The resulting access is
memoized under the node in every branch. -/
def partitionStep (backend : Backend) (symbol : String) (V : List VNode)
    (trs : List (List Int)) (num_points : Nat)
    (st : PartState) (i : Nat) : Except String PartState :=
  match listGet? V i "IndexError: V" with
  | .error e => .error e
  | .ok v =>
    match v with
    | .terminal id _ _ =>
        match listGet? trs i "IndexError: table_ranges" with
        | .error e => .error e
        | .ok tr =>
            let vaccess := backend.access id tr num_points
            let vdef := backend.definitions id tr num_points vaccess
            .ok { st with definitions := st.definitions ++ vdef,
                          vaccesses := assocUpdate st.vaccesses id vaccess }
    | .operator id handler isCond ops =>
        match ops.mapM (fun op => dictGet? st.vaccesses op "KeyError: vaccesses") with
        | .error e => .error e
        | .ok vops =>
            let names := insertName st.ufl_names handler
            let vexpr := backend.ufl_to_language handler vops
            if isCond then
              .ok { st with ufl_names := names,
                            vaccesses := assocUpdate st.vaccesses id vexpr }
            else
              let j := st.intermediates.length
              let vaccess := CExpr.arrayAccess (CExpr.symbol symbol) (CExpr.literalInt j)
              .ok { st with ufl_names := names,
                            intermediates :=
                              st.intermediates ++ [CStmt.assign vaccess vexpr],
                            vaccesses := assocUpdate st.vaccesses id vaccess }

/-- `[i for i, p in enumerate(partition) if p]`. -/
def partitionIndices (partition : List Bool) : List Nat :=
  (partition.enum.filter (fun p => p.2)).map (fun p => p.1)

/-- generate_partition (lines 324-394): run the node loop over the active
indices, then join terminal definitions, the intermediate-array
declaration, and the intermediate assignments. -/
def generate_partition (ir : IR) (backend : Backend) (symbol : String)
    (V : List VNode) (partition : List Bool) (trs : List (List Int))
    (num_points : Nat) (vaccesses0 : List (Nat × CExpr)) (names0 : List String) :
    Except String (List CStmt × List (Nat × CExpr) × List String) :=
  match (partitionIndices partition).foldlM
      (partitionStep backend symbol V trs num_points)
      ⟨[], [], vaccesses0, names0⟩ with
  | .error e => .error e
  | .ok st =>
      let parts :=
        (if st.definitions.isEmpty then [] else st.definitions) ++
        (if st.intermediates.isEmpty then []
         else
          [CStmt.arrayDecl "double" symbol [st.intermediates.length] [] ir.alignas] ++
          st.intermediates)
      .ok (parts, st.vaccesses, st.ufl_names)

/-- The two partition kinds and their string names. -/
inductive PartKind where
  | piecewise
  | varying
  deriving DecidableEq, Repr

def PartKind.name : PartKind → String
  | .piecewise => "piecewise"
  | .varying => "varying"

def PartKind.arrayPrefix : PartKind → String
  | .piecewise => "sp"
  | .varying => "sv"

def PartKind.select (pk : PartKind) (e : ExprIR) : List Bool :=
  match pk with
  | .piecewise => e.piecewise
  | .varying => e.varying

/-- generate_unstructured_partition (lines 397-412): pick the partition
flags and the array symbol name for the kind, run generate_partition on
this count's memo, write the updated memo back, and add the leading
comment when anything was generated. -/
def generate_unstructured_partition (ir : IR) (backend : Backend) (st : GenState)
    (num_points : Nat) (pk : PartKind) : Except String (List CStmt × GenState) :=
  match dictGet? ir.expr_irs num_points "KeyError: expr_irs" with
  | .error e => .error e
  | .ok expr_ir =>
      let arraysymbol := pk.arrayPrefix ++ toString num_points
      match dictGet? st.vaccesses num_points "KeyError: vaccesses" with
      | .error e => .error e
      | .ok va =>
          match generate_partition ir backend arraysymbol expr_ir.V
              (pk.select expr_ir) expr_ir.table_ranges num_points va st.ufl_names with
          | .error e => .error e
          | .ok (parts, va', names') =>
              .ok (commented_code_list parts
                     ["Unstructured " ++ pk.name ++ " computations"],
                   { vaccesses := assocUpdate st.vaccesses num_points va',
                     ufl_names := names' })

/-- One dof-block contribution (lines 265-319): the factor access (omitted
for a literal one), loop-counter symbols per axis (the quadrature loop's
counter for "quadrature" axes), table accesses for axes that are neither
"quadrature" nor "ones" ("zeros" is asserted away), the accumulate into
the flattened tensor index, and the loop nest wrapped innermost-axis
first over the non-quadrature axes. -/
def dofblockContribution (ir : IR) (backend : Backend)
    (va : List (Nat × CExpr)) (expr_ir : ExprIR) (num_points : Nat)
    (dofblock : List (Int × Int)) (data : Contribution) : Except String CStmt :=
  let rank := data.unames.length
  match listGet? expr_ir.V data.factor_index "IndexError: V" with
  | .error e => .error e
  | .ok v =>
    let factors0E : Except String (List CExpr) :=
      if v.isLiteralOne then .ok []
      else
        match dictGet? va v.nodeId "KeyError: vaccesses" with
        | .error e => .error e
        | .ok a => .ok [a]
    match factors0E with
    | .error e => .error e
    | .ok factors0 =>
      match (List.range rank).mapM (fun i =>
          match listGet? data.ttypes i "IndexError: ttypes" with
          | .error e => Except.error e
          | .ok tt =>
              if tt = "quadrature" then
                Except.ok (CExpr.symbol (backend.quadrature_loop_index num_points))
              else
                Except.ok (CExpr.symbol (backend.argument_loop_index i))) with
      | .error e => .error e
      | .ok A_indices =>
        match (List.range rank).foldlM (fun acc i =>
            match listGet? data.ttypes i "IndexError: ttypes" with
            | .error e => Except.error e
            | .ok tt =>
                if tt = "zeros" then Except.error "AssertionError: tt not in (zeros,)"
                else if tt = "quadrature" ∨ tt = "ones" then Except.ok acc
                else
                  match listGet? data.ma_indices i "IndexError: ma_indices" with
                  | .error e => Except.error e
                  | .ok ma =>
                    match listGet? expr_ir.modified_arguments ma
                        "IndexError: modified_arguments" with
                    | .error e => Except.error e
                    | .ok mter =>
                      match listGet? data.trs i "IndexError: table_ranges" with
                      | .error e => Except.error e
                      | .ok tr => Except.ok (acc ++ [backend.access mter tr num_points]))
            factors0 with
        | .error e => .error e
        | .ok factors =>
          let term :=
            if factors.isEmpty then CExpr.literalFloat 1 else CExpr.product factors
          let A := CExpr.symbol backend.element_tensor
          let flat := CExpr.flatIndex A_indices ir.tensor_shape
          let body0 := CStmt.assignAdd (CExpr.arrayAccess A flat) term
          (List.range rank).reverse.foldlM (fun body i =>
              match listGet? data.ttypes i "IndexError: ttypes" with
              | .error e => Except.error e
              | .ok tt =>
                  if tt ≠ "quadrature" then
                    match listGet? dofblock i "IndexError: dofblock" with
                    | .error e => Except.error e
                    | .ok dofrange =>
                      match listGet? A_indices i "IndexError: A_indices" with
                      | .error e => Except.error e
                      | .ok ai =>
                          Except.ok (CStmt.forRange ai (CExpr.literalInt dofrange.1)
                                 (CExpr.literalInt dofrange.2) [body])
                  else Except.ok body)
            body0

/-- generate_dofblock_partition (lines 244-321): for every dof block of the
requested partition, in sorted order, emit one wrapped accumulation per
contribution.  Reads the memo of this count; mutates nothing. -/
def generate_dofblock_partition (ir : IR) (backend : Backend) (st : GenState)
    (num_points : Nat) (pk : PartKind) : Except String (List CStmt) :=
  match dictGet? ir.expr_irs num_points "KeyError: expr_irs" with
  | .error e => .error e
  | .ok expr_ir =>
      match dictGet? st.vaccesses num_points "KeyError: vaccesses" with
      | .error e => .error e
      | .ok va =>
          let bcs := match pk with
            | .piecewise => expr_ir.block_contributions_piecewise
            | .varying => expr_ir.block_contributions_varying
          bcs.foldlM (fun acc dc =>
            dc.2.foldlM (fun acc2 data =>
              match dofblockContribution ir backend va expr_ir num_points dc.1 data with
              | .error e => .error e
              | .ok stmt => .ok (acc2 ++ [stmt])) acc) []

/-- The comment of the quadrature-loop body setup. -/
def quadratureBodyMsg (num_points : Nat) : String :=
  "Quadrature loop body setup (num_points=" ++ toString num_points ++ ")"

/-- generate_quadrature_loops (lines 216-241): assemble the varying body
(unstructured varying partition, commented, plus varying dof blocks); emit
nothing when it is empty, a commented bare Scope when the point count is 1,
and otherwise one counted loop from 0 to the point count. -/
def generate_quadrature_loops (ir : IR) (backend : Backend) (st : GenState)
    (num_points : Nat) : Except String (List CStmt × GenState) :=
  match generate_unstructured_partition ir backend st num_points .varying with
  | .error e => .error e
  | .ok (parts1, st1) =>
      let body1 := commented_code_list parts1 [quadratureBodyMsg num_points]
      match generate_dofblock_partition ir backend st1 num_points .varying with
      | .error e => .error e
      | .ok parts2 =>
          let body := body1 ++ parts2
          if body.isEmpty then .ok ([], st1)
          else if num_points = 1 then
            .ok (commented_code_list [CStmt.scope body]
                   ["Only 1 quadrature point, no loop"], st1)
          else
            let iq := CExpr.symbol (backend.quadrature_loop_index num_points)
            let np := CExpr.symbol (backend.num_quadrature_points num_points)
            .ok ([CStmt.forRange iq (CExpr.literalInt 0) np body], st1)

/-- generate_quadrature_tables (lines 121-163): skipped entirely for
integral kinds carrying no explicit rule; per rule, the weights array when
needed, the shape assertions, and the flattened points array when needed;
a leading comment when anything was emitted. -/
def generate_quadrature_tables (ir : IR) (backend : Backend) :
    Except String (List CStmt) :=
  if ir.integral_type ∈ ["custom", "cutcell", "interface", "overlap", "vertex"] then
    .ok []
  else
    match ir.quadrature_rules.foldlM (fun acc nq =>
        let num_points := nq.1
        let qr := nq.2
        if num_points ≠ qr.weights.length then
          Except.error "AssertionError: num_points == len(weights)"
        else
          match dictGet? ir.expr_irs num_points "KeyError: expr_irs" with
          | .error e => Except.error e
          | .ok expr_ir =>
              let acc1 :=
                if expr_ir.need_weights then
                  acc ++ [CStmt.arrayDecl "static const double"
                            (backend.weights_array num_points) [num_points]
                            qr.weights ir.alignas]
                else acc
              match qr.points with
              | [] => Except.error "IndexError: points[0]"
              | row :: _ =>
                  let pdim := row.length
                  if qr.points.length ≠ num_points then
                    Except.error "AssertionError: points.shape[0] == num_points"
                  else
                    Except.ok (if pdim ≠ 0 ∧ expr_ir.need_points then
                          acc1 ++ [CStmt.arrayDecl "static const double"
                                     (backend.points_array num_points)
                                     [num_points * pdim] qr.points.flatten ir.alignas]
                         else acc1)) [] with
    | .error e => .error e
    | .ok parts =>
        .ok (commented_code_list parts ["Section for quadrature weights and points"])

/-- generate_element_tables (lines 166-190): per quadrature-point count, a
comment plus one static array per unique precomputed basis-value table. -/
def generate_element_tables (ir : IR) : List CStmt :=
  let parts := ir.expr_irs.foldl (fun acc ne =>
    let tables := ne.2.unique_tables
    if tables.isEmpty then acc
    else
      acc ++ [CStmt.comment ("Definitions of " ++ toString tables.length ++
                " tables for " ++ toString ne.1 ++ " quadrature points")] ++
      tables.map (fun t => CStmt.arrayDecl "static const double" t.1 t.2.1 t.2.2 ir.alignas)) []
  commented_code_list parts
    ["Section for precomputed element basis function values",
     "Table dimensions: num_entities, num_points, num_dofs"]

/-- generate_finishing_statements (lines 415-429): the "expression"
integral kind is explicitly unimplemented; everything else adds nothing. -/
def generate_finishing_statements (ir : IR) : Except String (List CStmt) :=
  if ir.integral_type = "expression" then
    .error "Expression generation not implemented yet."
  else .ok []

/-- The per-quadrature-point-count body of generate's main loop (lines
101-114): piecewise unstructured partition, piecewise dof blocks, then the
quadrature loops. -/
def generateBodyForNumPoints (ir : IR) (backend : Backend) (st : GenState)
    (num_points : Nat) : Except String (List CStmt × GenState) :=
  match generate_unstructured_partition ir backend st num_points .piecewise with
  | .error e => .error e
  | .ok (b1, st1) =>
      match generate_dofblock_partition ir backend st1 num_points .piecewise with
      | .error e => .error e
      | .ok b2 =>
          match generate_quadrature_loops ir backend st1 num_points with
          | .error e => .error e
          | .ok (b3, st2) => .ok (b1 ++ b2 ++ b3, st2)

/-- generate (lines 78-118): quadrature tables, element tables, tensor
reset, fresh empty access memos for every quadrature-point count, the
per-count bodies (each in its own Scope when several counts coexist), and
the finishing statements. -/
def generate (ir : IR) (backend : Backend) : Except String (List CStmt) :=
  match generate_quadrature_tables ir backend with
  | .error e => .error e
  | .ok qparts =>
      let eparts := generate_element_tables ir
      let rparts := generate_tensor_reset ir backend
      let all_num_points := ir.expr_irs.map (fun ne => ne.1)
      let st0 : GenState := { vaccesses := initVaccesses all_num_points, ufl_names := [] }
      match all_num_points.foldlM (fun acc num_points =>
          match generateBodyForNumPoints ir backend acc.2 num_points with
          | .error e => Except.error e
          | .ok (body, st2) =>
              if all_num_points.length > 1 then
                Except.ok (acc.1 ++ [CStmt.scope body], st2)
              else
                Except.ok (acc.1 ++ body, st2))
          ((qparts ++ eparts ++ rparts : List CStmt), st0) with
      | .error e => .error e
      | .ok (parts, _) =>
          match generate_finishing_statements ir with
          | .error e => .error e
          | .ok fparts => .ok (parts ++ fparts)

/-! ## Definitions used in the statements of the theorems -/

/-- The classification table of the index classifier, as a function of the
two footprint occurrence counts: (1,1) SECONDARY, (2,0) INTERNAL, (0,2)
EXTERNAL, anything else the contraction error.  Used to state the
classification lemmas uniformly over the three roles. -/
def countsRole (ni ne : Nat) : Option IndexType :=
  if ni = 1 ∧ ne = 1 then some .secondary
  else if ni = 2 ∧ ne = 0 then some .internal
  else if ni = 0 ∧ ne = 2 then some .external
  else none

/-- The element map the Piola step resolves for a factor, given the state
and resolved components it runs on: the mapping of
`component_element(components[0].index_range[0])`, or `none` when there is
no component or the component's range is empty (the error paths). -/
def piolaMappingOf (st : TMState) (f : RawFactor) (comps : List Ref) :
    Option MappingType :=
  match comps with
  | [] => none
  | component :: _ =>
      match (arenaGet st.arena component).index_range with
      | [] => none
      | r0 :: _ => some (componentElementLookup f.element r0).1

/-- The element map a factor resolves to inside processFactor: the Piola
step runs right after value-index extraction and component resolution. -/
def factorMapping (st : TMState) (f : RawFactor) : Option MappingType :=
  piolaMappingOf (extractComponentsStep (valueIndexStep st f).1 f).1 f
    (extractComponentsStep (valueIndexStep st f).1 f).2

/-- The constant text of the contraction error: the index being classified
is always still untyped, so `str(i)` prints the placeholder. -/
def contractionErrorText : String :=
  "Summation index does not appear exactly twice: ?"

/-! ## Concrete inputs used by the closed conjuncts and witnesses -/

/-- A scalar affine element (e.g. Lagrange): one value component. -/
def elemScalar : RawElement := ⟨1, 3, 2, 1, [(.affine, 0)]⟩

/-- A vector-valued contravariant-Piola element (e.g. Raviart-Thomas):
two value components, both mapped contravariantly. -/
def elemContra : RawElement :=
  ⟨2, 4, 2, 1, [(.contravariantPiola, 0), (.contravariantPiola, 0)]⟩

/-- A vector-valued covariant-Piola element (e.g. Nedelec). -/
def elemCo : RawElement :=
  ⟨2, 4, 2, 1, [(.covariantPiola, 0), (.covariantPiola, 0)]⟩

/-- A monomial with one coefficient factor: its value index occurs once
internally (the basis function) and once externally (the coefficient), so
it classifies as SECONDARY with the first id of the secondary counter. -/
def coeffMonomial : Monomial := ⟨1, [⟨elemScalar, .function 0, [], [], none⟩]⟩

/-- A second, unrelated coefficient monomial for the independent-run
comparison. -/
def coeffMonomial2 : Monomial :=
  ⟨2, [⟨elemScalar, .basisFunction 0, [], [], none⟩,
       ⟨elemScalar, .function 3, [], [], none⟩]⟩

/-- Inner product of two contravariantly mapped factors: the shared
component index contracts through two J transforms (EXTERNAL), and each
factor's determinant contribution is one power of -1. -/
def contraMonomial : Monomial :=
  ⟨1, [⟨elemContra, .basisFunction 0, [.free 0], [], none⟩,
       ⟨elemContra, .basisFunction 1, [.free 0], [], none⟩]⟩

/-- Inner product of two covariantly mapped factors: transforms but no
determinant change. -/
def coMonomial : Monomial :=
  ⟨1, [⟨elemCo, .basisFunction 0, [.free 0], [], none⟩,
       ⟨elemCo, .basisFunction 1, [.free 0], [], none⟩]⟩

/-- A monomial whose shared component index occurs three times internally
(three affine factors with the same free component): the classification
must abort with the contraction error. -/
def badMonomial : Monomial :=
  ⟨1, [⟨elemScalar, .basisFunction 0, [.free 5], [], none⟩,
       ⟨elemScalar, .basisFunction 1, [.free 5], [], none⟩,
       ⟨elemScalar, .basisFunction 2, [.free 5], [], none⟩]⟩

/-- An arena holding two independently created FIXED indices of equal
numeric value 2 and one untyped index occurring once in each footprint. -/
def arena9 : List IndexRecord :=
  [⟨some .fixed, [2], none⟩, ⟨some .fixed, [2], none⟩, ⟨none, [0, 1], none⟩]

/-- A single contravariantly mapped factor, for the per-factor
determinant step. -/
def contraFactor : RawFactor := ⟨elemContra, .basisFunction 0, [.free 0], [], none⟩

/-- The result of classifying arena9 over footprints in which the untyped
index 2 occurs once internally and once externally: index 2 becomes
SECONDARY with id 0 and the two fixed records are untouched. -/
def arena9c : List IndexRecord :=
  [⟨some .fixed, [2], none⟩, ⟨some .fixed, [2], none⟩,
   ⟨some .secondary, [0, 1], some 0⟩]

/-- A factor with two resolved components: the rank check must reject it. -/
def rank2Factor : RawFactor := ⟨elemScalar, .basisFunction 0, [.free 0, .free 1], [], none⟩

/-- The empty transformation state the factor loop starts from. -/
def tmState0 : TMState :=
  { arena := [], counters := reset_indices, index_map := [], coefficients := [],
    transforms := [], basis_functions := [],
    determinant := { power := 0, restriction := none }, float_value := 1 }

/-- A concrete backend adapter instance for the closed generator runs. -/
def testBackend : Backend :=
  { element_tensor := "A"
    quadrature_loop_index := fun n => "iq" ++ toString n
    num_quadrature_points := fun n => "nq" ++ toString n
    argument_loop_index := fun i => "ia" ++ toString i
    weights_array := fun n => "weights" ++ toString n
    points_array := fun n => "points" ++ toString n
    access := fun id _ _ => CExpr.backendExpr id []
    definitions := fun _ _ _ _ => []
    ufl_to_language := fun h args => CExpr.backendExpr h.length args }

/-- An expression IR with nothing active in either partition. -/
def exprIRempty : ExprIR :=
  { need_weights := false, need_points := false, unique_tables := [], V := [],
    piecewise := [], varying := [], table_ranges := [], modified_arguments := [],
    block_contributions_piecewise := [], block_contributions_varying := [] }

/-- An integral IR with one single-point quadrature rule and an empty
varying partition. -/
def irQ1 : IR :=
  { integral_type := "cell", tensor_shape := [2, 3], alignas := 32,
    quadrature_rules := [(1, ⟨[[0, 0]], [4]⟩)], expr_irs := [(1, exprIRempty)] }

/-- The generator state right before the quadrature loops of irQ1. -/
def stQ1 : GenState := { vaccesses := [(1, [])], ufl_names := [] }

/-- An IR whose output tensor has exactly one entry. -/
def irShape1 : IR :=
  { integral_type := "cell", tensor_shape := [1, 1], alignas := 32,
    quadrature_rules := [], expr_irs := [] }

/-- An IR whose output tensor has six entries. -/
def irShape23 : IR :=
  { integral_type := "cell", tensor_shape := [2, 3], alignas := 32,
    quadrature_rules := [], expr_irs := [] }

/-! ## Theorems -/

/-- C4: evaluating a MonomialIndex of role PRIMARY, SECONDARY, INTERNAL or
EXTERNAL without the binding array for that role fails with the error
message naming the missing role ("primary", "secondary", "internal
auxiliary", "external auxiliary" respectively), while a FIXED index
evaluates to its stored value — the first element of its range — for any
bindings whatsoever. -/
theorem index_evaluation_requires_binding (idx : IndexRecord)
    (p s i e : Option (List Int)) (v : Int) (r : List Int) :
    (idx.index_type = some .primary →
      MonomialIndex.call idx none s i e =
        .error "Missing index values for primary indices.") ∧
    (idx.index_type = some .secondary →
      MonomialIndex.call idx p none i e =
        .error "Missing index values for secondary indices.") ∧
    (idx.index_type = some .internal →
      MonomialIndex.call idx p s none e =
        .error "Missing index values for internal auxiliary indices.") ∧
    (idx.index_type = some .external →
      MonomialIndex.call idx p s i none =
        .error "Missing index values for external auxiliary indices.") ∧
    (idx.index_type = some .fixed → idx.index_range = v :: r →
      MonomialIndex.call idx p s i e = .ok v) := by
  refine ⟨fun h => ?_, fun h => ?_, fun h => ?_, fun h => ?_, fun h hr => ?_⟩ <;>
    simp [MonomialIndex.call, h, falsy]
  rw [hr]

/-- Witness for C4 at concrete index records. -/
theorem index_evaluation_requires_binding_witness :
    MonomialIndex.call ⟨some .primary, [0, 1], some 0⟩ none (some [3]) none none =
      .error "Missing index values for primary indices." ∧
    MonomialIndex.call ⟨some .secondary, [0, 1], some 0⟩ (some [3]) none none none =
      .error "Missing index values for secondary indices." ∧
    MonomialIndex.call ⟨some .internal, [0, 1], some 0⟩ none none none none =
      .error "Missing index values for internal auxiliary indices." ∧
    MonomialIndex.call ⟨some .external, [0, 1], some 0⟩ none none none none =
      .error "Missing index values for external auxiliary indices." ∧
    MonomialIndex.call ⟨some .fixed, [7], none⟩ none none none none = .ok 7 := by
  refine ⟨?_, ?_, ?_, ?_, ?_⟩
  · exact (index_evaluation_requires_binding ⟨some .primary, [0, 1], some 0⟩
      none (some [3]) none none 0 []).1 (by rfl)
  · exact (index_evaluation_requires_binding ⟨some .secondary, [0, 1], some 0⟩
      (some [3]) none none none 0 []).2.1 (by rfl)
  · exact (index_evaluation_requires_binding ⟨some .internal, [0, 1], some 0⟩
      none none none none 0 []).2.2.1 (by rfl)
  · exact (index_evaluation_requires_binding ⟨some .external, [0, 1], some 0⟩
      none none none none 0 []).2.2.2.1 (by rfl)
  · exact (index_evaluation_requires_binding ⟨some .fixed, [7], none⟩
      none none none none 7 []).2.2.2.2 (by rfl) (by rfl)

/-- C10: for a non-FIXED index, evaluating with the role's binding present
but empty gives exactly the same missing-index-values error as evaluating
with the binding absent: the truthiness check `not <binding>` does not
distinguish `[]` from `None`. -/
theorem empty_binding_equals_missing (idx : IndexRecord)
    (p s i e : Option (List Int)) :
    (idx.index_type = some .primary →
      MonomialIndex.call idx (some []) s i e = MonomialIndex.call idx none s i e ∧
      MonomialIndex.call idx (some []) s i e =
        .error "Missing index values for primary indices.") ∧
    (idx.index_type = some .secondary →
      MonomialIndex.call idx p (some []) i e = MonomialIndex.call idx p none i e ∧
      MonomialIndex.call idx p (some []) i e =
        .error "Missing index values for secondary indices.") ∧
    (idx.index_type = some .internal →
      MonomialIndex.call idx p s (some []) e = MonomialIndex.call idx p s none e ∧
      MonomialIndex.call idx p s (some []) e =
        .error "Missing index values for internal auxiliary indices.") ∧
    (idx.index_type = some .external →
      MonomialIndex.call idx p s i (some []) = MonomialIndex.call idx p s i none ∧
      MonomialIndex.call idx p s i (some []) =
        .error "Missing index values for external auxiliary indices.") := by
  refine ⟨fun h => ?_, fun h => ?_, fun h => ?_, fun h => ?_⟩ <;>
    simp [MonomialIndex.call, h, falsy]

/-- Witness for C10 at a concrete primary index record. -/
theorem empty_binding_equals_missing_witness :
    MonomialIndex.call ⟨some .primary, [0, 1], some 0⟩ (some []) none none none =
      MonomialIndex.call ⟨some .primary, [0, 1], some 0⟩ none none none none ∧
    MonomialIndex.call ⟨some .primary, [0, 1], some 0⟩ (some []) none none none =
      .error "Missing index values for primary indices." :=
  (empty_binding_equals_missing ⟨some .primary, [0, 1], some 0⟩
    none none none none).1 (by rfl)

/-- C6: resetting the output tensor emits a direct scalar assignment
`A[0] = 0.0` when the product of the tensor-shape dimensions is 1, and one
bulk memset statement over exactly N entries when the size N exceeds 1. -/
theorem tensor_reset_scalar_or_memset (ir : IR) (backend : Backend) :
    (listProd ir.tensor_shape = 1 →
      generate_tensor_reset ir backend =
        [CStmt.comment "Reset element tensor",
         CStmt.assign (CExpr.arrayAccess (CExpr.symbol backend.element_tensor)
           (CExpr.literalInt 0)) (CExpr.literalFloat 0)]) ∧
    (1 < listProd ir.tensor_shape →
      generate_tensor_reset ir backend =
        [CStmt.comment "Reset element tensor",
         memzero backend.element_tensor (listProd ir.tensor_shape)]) := by
  constructor
  · intro h
    simp [generate_tensor_reset, h]
  · intro h
    have hne : ¬ listProd ir.tensor_shape = 1 := by omega
    simp [generate_tensor_reset, hne]

/-- Witness for C6: a 1x1 tensor resets by scalar assignment, a 2x3 tensor
by one memset over 6 entries. -/
theorem tensor_reset_scalar_or_memset_witness :
    generate_tensor_reset irShape1 testBackend =
      [CStmt.comment "Reset element tensor",
       CStmt.assign (CExpr.arrayAccess (CExpr.symbol "A") (CExpr.literalInt 0))
         (CExpr.literalFloat 0)] ∧
    generate_tensor_reset irShape23 testBackend =
      [CStmt.comment "Reset element tensor", memzero "A" 6] := by
  constructor
  · exact (tensor_reset_scalar_or_memset irShape1 testBackend).1 (by rfl)
  · exact (tensor_reset_scalar_or_memset irShape23 testBackend).2 (by decide)

/-- C3: the three index counters are reset to zero at the start of every
TransformedMonomial construction, before anything is allocated — the whole
transformation is therefore independent of whatever a previous run left in
the global counters — and in two independent transformations started with
two different dirty counter states, the first index classified for the
secondary role receives id 0 in both. -/
theorem index_counters_reset_per_transformation :
    (∀ (ctr0 : Counters) (m : Monomial),
      transformMonomial ctr0 m = transformMonomial reset_indices m) ∧
    ((transformMonomial ⟨5, 7, 9⟩ coeffMonomial).map
        (fun t => arenaGet t.arena 0) =
      .ok ⟨some .secondary, [0, 1, 2], some 0⟩) ∧
    ((transformMonomial ⟨3, 1, 4⟩ coeffMonomial2).map
        (fun t => arenaGet t.arena 1) =
      .ok ⟨some .secondary, [0, 1, 2], some 0⟩) := by
  refine ⟨fun ctr0 m => rfl, by decide, by decide⟩

/-! Determinant bookkeeping lemmas for the per-factor Piola step. -/

theorem valueIndexStep_determinant (st : TMState) (f : RawFactor) :
    ((valueIndexStep st f).1).determinant = st.determinant := by
  cases h : f.function <;> simp [valueIndexStep, h]

theorem extractComponentOne_determinant (vdim : Nat) (acc : TMState × List Ref)
    (c : RawIdx) :
    ((extractComponentOne vdim acc c).1).determinant = acc.1.determinant := by
  cases h : assocLookup acc.1.index_map c with
  | some r => simp [extractComponentOne, h]
  | none => cases c with
    | fixed v => simp [extractComponentOne, h]
    | free k => simp [extractComponentOne, h]

theorem extractComponentsStep_determinant (st : TMState) (f : RawFactor) :
    ((extractComponentsStep st f).1).determinant = st.determinant := by
  suffices h : ∀ (cs : List RawIdx) (acc : TMState × List Ref),
      ((cs.foldl (extractComponentOne f.element.vdim) acc).1).determinant =
        acc.1.determinant by
    exact h f.components (st, [])
  intro cs
  induction cs with
  | nil => intro acc; rfl
  | cons c cs ih =>
      intro acc
      rw [List.foldl_cons, ih, extractComponentOne_determinant]

theorem derivOne_determinant (f : RawFactor) (acc : TMState × List Ref)
    (d : RawIdx) : ((derivOne f acc d).1).determinant = acc.1.determinant := by
  simp [derivOne]

theorem derivStep_determinant (st : TMState) (f : RawFactor) :
    ((derivStep st f).1).determinant = st.determinant := by
  suffices h : ∀ (ds : List RawIdx) (acc : TMState × List Ref),
      ((ds.foldl (derivOne f) acc).1).determinant = acc.1.determinant by
    exact h f.derivatives (st, [])
  intro ds
  induction ds with
  | nil => intro acc; rfl
  | cons d ds ih =>
      intro acc
      rw [List.foldl_cons, ih, derivOne_determinant]

theorem piolaStep_determinant (st : TMState) (f : RawFactor)
    (comps : List Ref) (pr : TMState × List Ref)
    (h : piolaStep st f comps = .ok pr) :
    pr.1.determinant.power = st.determinant.power -
      (if piolaMappingOf st f comps = some .contravariantPiola then 1 else 0) := by
  cases comps with
  | nil =>
      simp only [piolaStep, Except.ok.injEq] at h
      subst h
      simp [piolaMappingOf]
  | cons component rest =>
      cases hr : (arenaGet st.arena component).index_range with
      | nil => simp [piolaStep, hr] at h
      | cons r0 rrest =>
          simp only [piolaStep, hr] at h
          split at h
          · exact absurd h (by simp)
          · cases hm : (componentElementLookup f.element r0).1 with
            | contravariantPiola =>
                rw [hm] at h
                simp only [Except.ok.injEq] at h
                subst h
                simp [piolaMappingOf, hr, hm]
            | covariantPiola =>
                rw [hm] at h
                simp only [Except.ok.injEq] at h
                subst h
                simp [piolaMappingOf, hr, hm]
            | affine =>
                rw [hm] at h
                simp only [Except.ok.injEq] at h
                subst h
                simp [piolaMappingOf, hr, hm]

theorem processFactor_determinant (st : TMState) (f : RawFactor) (st' : TMState)
    (h : processFactor st f = .ok st') :
    st'.determinant.power = st.determinant.power -
      (if factorMapping st f = some .contravariantPiola then 1 else 0) := by
  simp only [processFactor] at h
  split at h
  · exact absurd h (by simp)
  · cases hp : piolaStep (extractComponentsStep (valueIndexStep st f).1 f).1 f
        (extractComponentsStep (valueIndexStep st f).1 f).2 with
    | error e => rw [hp] at h; simp at h
    | ok pr =>
        rw [hp] at h
        simp only [Except.ok.injEq] at h
        subst h
        have h4 : ((derivStep pr.1 f).1).determinant = pr.1.determinant :=
          derivStep_determinant pr.1 f
        have h3 := piolaStep_determinant _ f _ pr hp
        have h2 := extractComponentsStep_determinant (valueIndexStep st f).1 f
        have h1 := valueIndexStep_determinant st f
        simp only [factorMapping]
        simp only [h4, h3, h2, h1]

/-- C2: every fresh determinant starts at power 0; one factor-loop
iteration changes the power by exactly -1 when the factor's component
resolves to a contravariant Piola map and by 0 otherwise (in particular
for a covariant Piola map); consequently the monomial of two
contravariantly mapped factors ends at power -2 while its covariant twin
ends at power 0. -/
theorem determinant_power_piola :
    (∀ (st : TMState) (f : RawFactor) (st' : TMState),
      processFactor st f = .ok st' →
      st'.determinant.power = st.determinant.power -
        (if factorMapping st f = some .contravariantPiola then 1 else 0)) ∧
    ((transformMonomial reset_indices contraMonomial).map
        (fun t => t.determinant.power) = .ok (-2)) ∧
    ((transformMonomial reset_indices coMonomial).map
        (fun t => t.determinant.power) = .ok 0) := by
  refine ⟨processFactor_determinant, by decide, by decide⟩

/-- Witness for C2: one contravariant factor applied to the fresh state
takes the determinant power from 0 to -1. -/
theorem determinant_power_piola_witness :
    (processFactor tmState0 contraFactor).map (fun t => t.determinant.power) =
      .ok (-1) := by
  obtain ⟨st', hp⟩ : ∃ st', processFactor tmState0 contraFactor = .ok st' :=
    ⟨_, rfl⟩
  have hd := determinant_power_piola.1 tmState0 contraFactor st' hp
  have hm : factorMapping tmState0 contraFactor = some .contravariantPiola := by
    decide
  rw [hm] at hd
  simp only [hp, Except.map, hd]
  decide

/-- The only failures of the Piola step are the empty-range IndexError and
the inconsistent-mapping error; in particular it never raises the rank
error. -/
theorem piolaStep_error_messages (st : TMState) (f : RawFactor)
    (comps : List Ref) (e : String) (h : piolaStep st f comps = .error e) :
    e = "IndexError: list index out of range" ∨
    e = "Unable to handle different mappings for index range." := by
  cases comps with
  | nil => simp [piolaStep] at h
  | cons component rest =>
      cases hr : (arenaGet st.arena component).index_range with
      | nil =>
          simp only [piolaStep, hr, Except.error.injEq] at h
          exact Or.inl h.symm
      | cons r0 rrest =>
          simp only [piolaStep, hr] at h
          split at h
          · simp only [Except.error.injEq] at h
            exact Or.inr h.symm
          · cases hm : (componentElementLookup f.element r0).1 <;>
              rw [hm] at h <;> simp at h

/-- C5: a factor whose component resolution yields more than one resolved
component aborts with the rank error ("Can only handle rank 0 or rank 1
tensors."); a factor with zero or one resolved component passes the rank
check — whatever else may go wrong in its processing, it is never that
error. -/
theorem rank_check (st : TMState) (f : RawFactor) :
    ((extractComponentsStep (valueIndexStep st f).1 f).2.length > 1 →
      processFactor st f = .error "Can only handle rank 0 or rank 1 tensors.") ∧
    ((extractComponentsStep (valueIndexStep st f).1 f).2.length ≤ 1 →
      ∀ e, processFactor st f = .error e →
        e ≠ "Can only handle rank 0 or rank 1 tensors.") := by
  constructor
  · intro h
    simp only [processFactor]
    rw [if_pos h]
  · intro hle e he
    simp only [processFactor] at he
    rw [if_neg (by omega)] at he
    cases hp : piolaStep (extractComponentsStep (valueIndexStep st f).1 f).1 f
        (extractComponentsStep (valueIndexStep st f).1 f).2 with
    | error e' =>
        rw [hp] at he
        simp only [Except.error.injEq] at he
        subst he
        rcases piolaStep_error_messages _ _ _ _ hp with h | h <;> subst h <;> decide
    | ok pr => rw [hp] at he; simp at he

/-- Witness for C5: a two-component factor is rejected with the rank
error. -/
theorem rank_check_witness :
    processFactor tmState0 rank2Factor =
      .error "Can only handle rank 0 or rank 1 tensors." :=
  (rank_check tmState0 rank2Factor).1 (by decide)

/-! Arena lemmas for the classification loop. -/

theorem arenaGet_set_ne (arena : List IndexRecord) (r r' : Ref)
    (rec : IndexRecord) (h : r' ≠ r) :
    arenaGet (arena.set r rec) r' = arenaGet arena r' := by
  unfold arenaGet
  rw [List.getD_eq_getElem?_getD, List.getD_eq_getElem?_getD,
    List.getElem?_set_ne (Ne.symm h)]

theorem arenaGet_setTypeId_ne (arena : List IndexRecord) (r : Ref)
    (ty : IndexType) (id : Int) (r' : Ref) (h : r' ≠ r) :
    arenaGet (setTypeId arena r ty id) r' = arenaGet arena r' := by
  unfold setTypeId
  exact arenaGet_set_ne arena r r' _ h

theorem arenaGet_setTypeId_self (arena : List IndexRecord) (r : Ref)
    (ty : IndexType) (id : Int) (h : r < arena.length) :
    arenaGet (setTypeId arena r ty id) r =
      { arenaGet arena r with index_type := some ty, index_id := some id } := by
  unfold setTypeId arenaGet
  rw [List.getD_eq_getElem?_getD, List.getElem?_set_eq_of_lt _ h]
  rfl

theorem setTypeId_length (arena : List IndexRecord) (r : Ref)
    (ty : IndexType) (id : Int) :
    (setTypeId arena r ty id).length = arena.length := by
  unfold setTypeId
  exact List.length_set arena r _

/-- Records already carrying a type are never touched by the
classification loop. -/
theorem classifyLoop_preserves_typed (intRefs extRefs : List Ref) :
    ∀ (todo : List Ref) (arena : List IndexRecord) (ctr : Counters)
      (arena' : List IndexRecord) (ctr' : Counters) (r : Ref) (t : IndexType),
      (arenaGet arena r).index_type = some t →
      classifyLoop arena ctr intRefs extRefs todo = .ok (arena', ctr') →
      arenaGet arena' r = arenaGet arena r := by
  intro todo
  induction todo with
  | nil =>
      intro arena ctr arena' ctr' r t ht h
      simp only [classifyLoop, Except.ok.injEq, Prod.mk.injEq] at h
      rw [h.1]
  | cons j rest ih =>
      intro arena ctr arena' ctr' r t ht h
      simp only [classifyLoop] at h
      have hrj : ∀ (ty : IndexType) (id : Int) (ctr2 : Counters),
          classifyLoop (setTypeId arena j ty id) ctr2 intRefs extRefs rest =
            .ok (arena', ctr') →
          (arenaGet arena j).index_type = none →
          arenaGet arena' r = arenaGet arena r := by
        intro ty id ctr2 hcl hjnone
        have hne : r ≠ j := by
          intro hrj
          rw [hrj, hjnone] at ht
          cases ht
        have ht' : (arenaGet (setTypeId arena j ty id) r).index_type = some t := by
          rw [arenaGet_setTypeId_ne arena j ty id r hne]
          exact ht
        rw [ih (setTypeId arena j ty id) ctr2 arena' ctr' r t ht' hcl]
        exact arenaGet_setTypeId_ne arena j ty id r hne
      split at h
      · exact ih arena ctr arena' ctr' r t ht h
      · next hjnone =>
          rw [not_not] at hjnone
          split at h
          · exact hrj _ _ _ h hjnone
          · split at h
            · exact hrj _ _ _ h hjnone
            · split at h
              · exact hrj _ _ _ h hjnone
              · cases h

/-- When the loop succeeds, every index that was still untyped and occurs
in the processed list receives the role determined by its footprint
counts. -/
theorem classifyLoop_ok_type (intRefs extRefs : List Ref) :
    ∀ (todo : List Ref) (arena : List IndexRecord) (ctr : Counters)
      (arena' : List IndexRecord) (ctr' : Counters) (i : Ref) (ty : IndexType),
      classifyLoop arena ctr intRefs extRefs todo = .ok (arena', ctr') →
      i ∈ todo → (arenaGet arena i).index_type = none → i < arena.length →
      countsRole (intRefs.count i) (extRefs.count i) = some ty →
      (arenaGet arena' i).index_type = some ty := by
  intro todo
  induction todo with
  | nil =>
      intro arena ctr arena' ctr' i ty h hmem
      cases hmem
  | cons j rest ih =>
      intro arena ctr arena' ctr' i ty h hmem hnone hlt hrole
      simp only [classifyLoop] at h
      have hstep : ∀ (tyj : IndexType) (id : Int) (ctr2 : Counters),
          (arenaGet arena j).index_type = none →
          countsRole (intRefs.count j) (extRefs.count j) = some tyj →
          classifyLoop (setTypeId arena j tyj id) ctr2 intRefs extRefs rest =
            .ok (arena', ctr') →
          (arenaGet arena' i).index_type = some ty := by
        intro tyj id ctr2 hjnone hjrole hcl
        by_cases hij : i = j
        · subst hij
          have hty : tyj = ty := by
            rw [hjrole] at hrole
            exact (Option.some.injEq _ _ ▸ hrole)
          subst hty
          have hset : (arenaGet (setTypeId arena i tyj id) i).index_type =
              some tyj := by
            rw [arenaGet_setTypeId_self arena i tyj id hlt]
          have := classifyLoop_preserves_typed intRefs extRefs rest
            (setTypeId arena i tyj id) ctr2 arena' ctr' i tyj hset hcl
          rw [this]
          exact hset
        · have hmem' : i ∈ rest := by
            cases hmem with
            | head => exact absurd rfl hij
            | tail _ hm => exact hm
          have hnone' : (arenaGet (setTypeId arena j tyj id) i).index_type =
              none := by
            rw [arenaGet_setTypeId_ne arena j tyj id i hij]
            exact hnone
          have hlt' : i < (setTypeId arena j tyj id).length := by
            rw [setTypeId_length]
            exact hlt
          exact ih (setTypeId arena j tyj id) ctr2 arena' ctr' i ty hcl
            hmem' hnone' hlt' hrole
      split at h
      · next hjt =>
          have hij : i ≠ j := by
            intro hij
            rw [← hij] at hjt
            exact hjt hnone
          have hmem' : i ∈ rest := by
            cases hmem with
            | head => exact absurd rfl hij
            | tail _ hm => exact hm
          exact ih arena ctr arena' ctr' i ty h hmem' hnone hlt hrole
      · next hjnone =>
          rw [not_not] at hjnone
          split at h
          · next hc =>
              exact hstep .secondary _ _ hjnone
                (by simp [countsRole, hc.1, hc.2]) h
          · next hc1 =>
              split at h
              · next hc =>
                  exact hstep .internal _ _ hjnone
                    (by simp [countsRole, hc.1, hc.2, hc1]) h
              · next hc2 =>
                  split at h
                  · next hc =>
                      exact hstep .external _ _ hjnone
                        (by simp [countsRole, hc.1, hc.2, hc1, hc2]) h
                  · cases h

/-- The contraction error message is the fixed placeholder text, because
the offending index is always still untyped when it is printed. -/
theorem contractionMsg_untyped (rec : IndexRecord)
    (h : rec.index_type = none) : contractionMsg rec = contractionErrorText := by
  simp [contractionMsg, indexStr, h, contractionErrorText]

/-- When some untyped index of the processed list has footprint counts
outside the three admissible patterns, the loop fails with the contraction
error. -/
theorem classifyLoop_error (intRefs extRefs : List Ref) :
    ∀ (todo : List Ref) (arena : List IndexRecord) (ctr : Counters) (i : Ref),
      i ∈ todo → (arenaGet arena i).index_type = none →
      countsRole (intRefs.count i) (extRefs.count i) = none →
      classifyLoop arena ctr intRefs extRefs todo = .error contractionErrorText := by
  intro todo
  induction todo with
  | nil =>
      intro arena ctr i hmem
      cases hmem
  | cons j rest ih =>
      intro arena ctr i hmem hnone hrole
      simp only [classifyLoop]
      have hstep : ∀ (tyj : IndexType) (id : Int) (ctr2 : Counters),
          countsRole (intRefs.count j) (extRefs.count j) = some tyj →
          classifyLoop (setTypeId arena j tyj id) ctr2 intRefs extRefs rest =
            .error contractionErrorText := by
        intro tyj id ctr2 hjrole
        have hij : i ≠ j := by
          intro hij
          rw [hij, hjrole] at hrole
          cases hrole
        have hmem' : i ∈ rest := by
          cases hmem with
          | head => exact absurd rfl hij
          | tail _ hm => exact hm
        have hnone' : (arenaGet (setTypeId arena j tyj id) i).index_type =
            none := by
          rw [arenaGet_setTypeId_ne arena j tyj id i hij]
          exact hnone
        exact ih (setTypeId arena j tyj id) ctr2 i hmem' hnone' hrole
      by_cases hjt : (arenaGet arena j).index_type ≠ none
      · rw [if_pos hjt]
        have hij : i ≠ j := by
          intro hij
          rw [← hij] at hjt
          exact hjt hnone
        have hmem' : i ∈ rest := by
          cases hmem with
          | head => exact absurd rfl hij
          | tail _ hm => exact hm
        exact ih arena ctr i hmem' hnone hrole
      · rw [if_neg hjt]
        rw [not_not] at hjt
        by_cases hc1 : intRefs.count j = 1 ∧ extRefs.count j = 1
        · rw [if_pos hc1]
          exact hstep .secondary _ _ (by simp [countsRole, hc1.1, hc1.2])
        · rw [if_neg hc1]
          by_cases hc2 : intRefs.count j = 2 ∧ extRefs.count j = 0
          · rw [if_pos hc2]
            exact hstep .internal _ _ (by simp [countsRole, hc2.1, hc2.2, hc1])
          · rw [if_neg hc2]
            by_cases hc3 : intRefs.count j = 0 ∧ extRefs.count j = 2
            · rw [if_pos hc3]
              exact hstep .external _ _
                (by simp [countsRole, hc3.1, hc3.2, hc1, hc2])
            · rw [if_neg hc3]
              rw [contractionMsg_untyped (arenaGet arena j) hjt]

/-- C1: after the factor loop, every index with no assigned role is
classified by its occurrence counts in the internal and external
footprints — (1,1) SECONDARY, (2,0) INTERNAL, (0,2) EXTERNAL — and any
other count pair makes the classification fail with the contraction
error; in particular the whole transformation of a monomial whose shared
component index occurs three times internally aborts with that error. -/
theorem classification_by_footprint_counts (arena : List IndexRecord)
    (ctr : Counters) (intRefs extRefs : List Ref) (i : Ref)
    (hmem : i ∈ intRefs ++ extRefs)
    (hnone : (arenaGet arena i).index_type = none) :
    (i < arena.length → intRefs.count i = 1 → extRefs.count i = 1 →
      ∀ arena' ctr', classifyIndices arena ctr intRefs extRefs =
        .ok (arena', ctr') →
      (arenaGet arena' i).index_type = some .secondary) ∧
    (i < arena.length → intRefs.count i = 2 → extRefs.count i = 0 →
      ∀ arena' ctr', classifyIndices arena ctr intRefs extRefs =
        .ok (arena', ctr') →
      (arenaGet arena' i).index_type = some .internal) ∧
    (i < arena.length → intRefs.count i = 0 → extRefs.count i = 2 →
      ∀ arena' ctr', classifyIndices arena ctr intRefs extRefs =
        .ok (arena', ctr') →
      (arenaGet arena' i).index_type = some .external) ∧
    (¬ (intRefs.count i = 1 ∧ extRefs.count i = 1) →
     ¬ (intRefs.count i = 2 ∧ extRefs.count i = 0) →
     ¬ (intRefs.count i = 0 ∧ extRefs.count i = 2) →
      classifyIndices arena ctr intRefs extRefs =
        .error contractionErrorText) ∧
    (transformMonomial reset_indices badMonomial =
      .error contractionErrorText) := by
  refine ⟨?_, ?_, ?_, ?_, by decide⟩
  · intro hlt h1 h2 arena' ctr' h
    exact classifyLoop_ok_type intRefs extRefs (intRefs ++ extRefs) arena ctr
      arena' ctr' i .secondary h hmem hnone hlt (by rw [h1, h2]; decide)
  · intro hlt h1 h2 arena' ctr' h
    exact classifyLoop_ok_type intRefs extRefs (intRefs ++ extRefs) arena ctr
      arena' ctr' i .internal h hmem hnone hlt (by rw [h1, h2]; decide)
  · intro hlt h1 h2 arena' ctr' h
    exact classifyLoop_ok_type intRefs extRefs (intRefs ++ extRefs) arena ctr
      arena' ctr' i .external h hmem hnone hlt (by rw [h1, h2]; decide)
  · intro h1 h2 h3
    exact classifyLoop_error intRefs extRefs (intRefs ++ extRefs) arena ctr i
      hmem hnone (by simp [countsRole, h1, h2, h3])

/-- Witness for C1: in arena9, the untyped index 2 occurring once in each
footprint is classified SECONDARY. -/
theorem classification_by_footprint_counts_witness :
    (arenaGet arena9c 2).index_type = some .secondary :=
  (classification_by_footprint_counts arena9 ⟨0, 0, 0⟩ [2] [2] 2
      (by decide) (by rfl)).1 (by decide) (by rfl) (by rfl)
    arena9c ⟨1, 0, 0⟩ (by rfl)

/-- C9: two FIXED indices created independently with equal numeric value
are never unified by the classification step — the classification leaves
both records exactly as they were (so both stay FIXED, neither acquires a
summation role), and neither index is even a member of the `None`-typed
internal or external footprint lists over which the occurrence counts of
the not-yet-typed indices are taken. -/
theorem fixed_indices_not_unified (arena : List IndexRecord) (ctr : Counters)
    (intRefs extRefs : List Ref) (i j : Ref) (v : Int)
    (hij : i ≠ j)
    (hit : (arenaGet arena i).index_type = some .fixed)
    (hjt : (arenaGet arena j).index_type = some .fixed)
    (hiv : (arenaGet arena i).index_range = [v])
    (hjv : (arenaGet arena j).index_range = [v]) :
    (∀ arena' ctr', classifyIndices arena ctr intRefs extRefs =
        .ok (arena', ctr') →
      arenaGet arena' i = arenaGet arena i ∧
      arenaGet arena' j = arenaGet arena j ∧
      (arenaGet arena' i).index_type = some .fixed ∧
      (arenaGet arena' j).index_type = some .fixed) ∧
    (∀ bfs : List MonomialBasisFunction,
      i ∉ extract_internal_indices arena bfs none ∧
      j ∉ extract_internal_indices arena bfs none) ∧
    (∀ (coeffs : List MonomialCoefficient)
       (transforms : List MonomialTransform),
      i ∉ extract_external_indices arena coeffs transforms none ∧
      j ∉ extract_external_indices arena coeffs transforms none) := by
  refine ⟨?_, ?_, ?_⟩
  · intro arena' ctr' h
    have hi := classifyLoop_preserves_typed intRefs extRefs
      (intRefs ++ extRefs) arena ctr arena' ctr' i .fixed hit h
    have hj := classifyLoop_preserves_typed intRefs extRefs
      (intRefs ++ extRefs) arena ctr arena' ctr' j .fixed hjt h
    exact ⟨hi, hj, by rw [hi]; exact hit, by rw [hj]; exact hjt⟩
  · intro bfs
    constructor <;> intro hm <;>
      simp only [extract_internal_indices, List.mem_filter,
        decide_eq_true_eq] at hm
    · rw [hit] at hm; cases hm.2
    · rw [hjt] at hm; cases hm.2
  · intro coeffs transforms
    constructor <;> intro hm <;>
      simp only [extract_external_indices, List.mem_filter,
        decide_eq_true_eq] at hm
    · rw [hit] at hm; cases hm.2
    · rw [hjt] at hm; cases hm.2

/-- Witness for C9: arena9's two equal-valued fixed records survive the
classification of index 2 untouched. -/
theorem fixed_indices_not_unified_witness :
    arenaGet arena9c 0 = arenaGet arena9 0 ∧
    arenaGet arena9c 1 = arenaGet arena9 1 ∧
    (arenaGet arena9c 0).index_type = some .fixed ∧
    (arenaGet arena9c 1).index_type = some .fixed :=
  (fixed_indices_not_unified arena9 ⟨0, 0, 0⟩ [2] [2] 0 1 2
      (by decide) (by rfl) (by rfl) (by rfl) (by rfl)).1
    arena9c ⟨1, 0, 0⟩ (by rfl)

/-- C7: given the varying body assembled from the unstructured varying
partition (with its setup comment) and the varying dof blocks, the
quadrature-loop generator emits nothing for an empty body, the body inside
a commented bare scope when the point count is 1, and a single counted
loop from 0 to the point count otherwise. -/
theorem quadrature_loop_wrapping (ir : IR) (backend : Backend) (st : GenState)
    (n : Nat) (p1 : List CStmt) (st1 : GenState) (p2 : List CStmt)
    (h1 : generate_unstructured_partition ir backend st n .varying = .ok (p1, st1))
    (h2 : generate_dofblock_partition ir backend st1 n .varying = .ok p2) :
    (commented_code_list p1 [quadratureBodyMsg n] ++ p2 = [] →
      generate_quadrature_loops ir backend st n = .ok ([], st1)) ∧
    (commented_code_list p1 [quadratureBodyMsg n] ++ p2 ≠ [] → n = 1 →
      generate_quadrature_loops ir backend st n =
        .ok ([CStmt.comment "Only 1 quadrature point, no loop",
              CStmt.scope (commented_code_list p1 [quadratureBodyMsg n] ++ p2)],
             st1)) ∧
    (commented_code_list p1 [quadratureBodyMsg n] ++ p2 ≠ [] → n ≠ 1 →
      generate_quadrature_loops ir backend st n =
        .ok ([CStmt.forRange (CExpr.symbol (backend.quadrature_loop_index n))
                (CExpr.literalInt 0)
                (CExpr.symbol (backend.num_quadrature_points n))
                (commented_code_list p1 [quadratureBodyMsg n] ++ p2)], st1)) := by
  refine ⟨?_, ?_, ?_⟩
  · intro hbody
    simp only [generate_quadrature_loops, h1, h2]
    rw [hbody]
    rfl
  · intro hbody hn
    subst hn
    simp only [generate_quadrature_loops, h1, h2]
    rw [if_neg (by simpa using hbody)]
    cases hcl : commented_code_list p1 [quadratureBodyMsg 1] ++ p2 with
    | nil => exact absurd hcl hbody
    | cons a rest => simp [commented_code_list]
  · intro hbody hn
    simp only [generate_quadrature_loops, h1, h2]
    rw [if_neg (by simpa using hbody), if_neg hn]

/-- Witness for C7: a single-point rule whose varying partition and
varying dof blocks are both empty emits nothing at all. -/
theorem quadrature_loop_wrapping_witness :
    generate_quadrature_loops irQ1 testBackend stQ1 1 = .ok ([], stQ1) :=
  (quadrature_loop_wrapping irQ1 testBackend stQ1 1 [] stQ1 []
    (by rfl) (by rfl)).1 (by rfl)

/-! Association-list lemmas for the access memo. -/

theorem assocLookup_update_self {κ α : Type} [DecidableEq κ] :
    ∀ (l : List (κ × α)) (k : κ) (a : α),
    assocLookup (assocUpdate l k a) k = some a := by
  intro l k a
  induction l with
  | nil => simp [assocUpdate, assocLookup]
  | cons p rest ih =>
      obtain ⟨k', v'⟩ := p
      by_cases h : k' = k
      · simp [assocUpdate, assocLookup, h]
      · simp [assocUpdate, assocLookup, h, ih]

theorem assocLookup_update_ne {κ α : Type} [DecidableEq κ] :
    ∀ (l : List (κ × α)) (k k' : κ) (a : α), k' ≠ k →
    assocLookup (assocUpdate l k a) k' = assocLookup l k' := by
  intro l k k' a hne
  induction l with
  | nil =>
      simp only [assocUpdate, assocLookup]
      rw [if_neg (Ne.symm hne)]
  | cons p rest ih =>
      obtain ⟨k0, v0⟩ := p
      by_cases h : k0 = k
      · subst h
        simp only [assocUpdate, if_pos rfl, assocLookup]
        rw [if_neg (Ne.symm hne), if_neg (Ne.symm hne)]
      · simp only [assocUpdate, if_neg h, assocLookup]
        by_cases h' : k0 = k'
        · rw [if_pos h', if_pos h']
        · rw [if_neg h', if_neg h']
          exact ih

theorem assocLookup_initVaccesses :
    ∀ (nums : List Nat) (n : Nat), n ∈ nums →
    assocLookup (initVaccesses nums) n = some ([] : List (Nat × CExpr)) := by
  intro nums
  induction nums with
  | nil => intro n h; cases h
  | cons m rest ih =>
      intro n h
      by_cases hmn : m = n
      · simp [initVaccesses, assocLookup, hmn]
      · have hn : n ∈ rest := by
          cases h with
          | head => exact absurd rfl hmn
          | tail _ hm => exact hm
        simp only [initVaccesses, List.map_cons, assocLookup, if_neg hmn]
        exact ih n hn

/-- C8: for an active operator node of the partition loop, a boolean
condition is inlined — its translated expression becomes the memoized
access and no intermediate slot is allocated — while every other operator
is assigned to the next slot of the per-partition intermediate array,
whose access is memoized instead; the memo update binds exactly the node's
key and preserves every other memoized access, and the memo of every
quadrature-point count starts out empty when generate initializes them. -/
theorem partition_memoization (backend : Backend) (symbol : String)
    (V : List VNode) (trs : List (List Int)) (np : Nat) (st : PartState)
    (i id : Nat) (handler : String) (isCond : Bool) (ops : List Nat)
    (vops : List CExpr)
    (hV : listGet? V i "IndexError: V" = .ok (VNode.operator id handler isCond ops))
    (hops : ops.mapM (fun op => dictGet? st.vaccesses op "KeyError: vaccesses") =
      .ok vops) :
    (isCond = true → partitionStep backend symbol V trs np st i =
      .ok { st with ufl_names := insertName st.ufl_names handler,
                    vaccesses := assocUpdate st.vaccesses id
                      (backend.ufl_to_language handler vops) }) ∧
    (isCond = false → partitionStep backend symbol V trs np st i =
      .ok { st with ufl_names := insertName st.ufl_names handler,
                    intermediates := st.intermediates ++
                      [CStmt.assign
                        (CExpr.arrayAccess (CExpr.symbol symbol)
                          (CExpr.literalInt st.intermediates.length))
                        (backend.ufl_to_language handler vops)],
                    vaccesses := assocUpdate st.vaccesses id
                      (CExpr.arrayAccess (CExpr.symbol symbol)
                        (CExpr.literalInt st.intermediates.length)) }) ∧
    (∀ (va : List (Nat × CExpr)) (k : Nat) (a : CExpr),
      assocLookup (assocUpdate va k a) k = some a) ∧
    (∀ (va : List (Nat × CExpr)) (k k' : Nat) (a : CExpr), k' ≠ k →
      assocLookup (assocUpdate va k a) k' = assocLookup va k') ∧
    (∀ (nums : List Nat) (n : Nat), n ∈ nums →
      assocLookup (initVaccesses nums) n = some ([] : List (Nat × CExpr))) := by
  refine ⟨?_, ?_, fun va k a => assocLookup_update_self va k a,
    fun va k k' a h => assocLookup_update_ne va k k' a h,
    assocLookup_initVaccesses⟩
  · intro hc
    subst hc
    unfold partitionStep
    rw [hV]
    simp only []
    rw [hops]
    simp
  · intro hc
    subst hc
    unfold partitionStep
    rw [hV]
    simp only []
    rw [hops]
    simp

/-- Witness for C8: a non-condition operator node with no operands is
assigned to intermediate slot 0 and memoized under its key. -/
theorem partition_memoization_witness :
    partitionStep testBackend "sv1" [VNode.operator 7 "sum" false []] [] 1
      ⟨[], [], [], []⟩ 0 =
    .ok { definitions := [],
          intermediates := [CStmt.assign
            (CExpr.arrayAccess (CExpr.symbol "sv1") (CExpr.literalInt 0))
            (testBackend.ufl_to_language "sum" [])],
          vaccesses := [(7, CExpr.arrayAccess (CExpr.symbol "sv1")
            (CExpr.literalInt 0))],
          ufl_names := ["sum"] } :=
  (partition_memoization testBackend "sv1" [VNode.operator 7 "sum" false []]
    [] 1 ⟨[], [], [], []⟩ 0 7 "sum" false [] [] (by rfl) (by rfl)).2.1 (by rfl)

end FFC
